import Mathlib

/-!
Shallow embedding of the `arm-dcc` crate (Debug Communication Channel driver)
and its companion `panic-dcc` panic handler.

The channel is modelled at two levels:
* an event-level model of the direct (inline-asm) backend: `directWrite`
  consumes an oracle list of successive status-register reads and records
  the register accesses it performs;
* a trace-level model of the observable channel effect of a completed
  blocking write: `writeWord` appends the pushed word to the channel trace.
  `write_all` / `write_str` / the panic handler are embedded over this
  trace semantics, mirroring the source line by line.
-/

namespace ArmDcc

/-- Hardware register accesses performed by the direct backend:
a read of the DCC status register (MRC p14, c0, c1) returning `r`,
or a write of `w` to the DCC data register (MCR p14, c0, c5). -/
inductive Event
  | readStatus (r : Nat)
  | writeData (w : Nat)
deriving DecidableEq, Repr

/-- Bit 29 of the status register: `const W: u32 = 1 << 29` in the source. -/
def statusW : Nat := 1 <<< 29

/-- Direct (inline-asm) strategy of `dcc::write`: busy-poll the status
register until bit 29 reads clear, then write `word` to the data register.
The oracle `statuses` supplies the successive values returned by the status
reads; `none` means the oracle was exhausted while the flag still read
busy, i.e. the loop has not terminated and no data write was issued. -/
def directWrite (word : Nat) : List Nat → Option (List Event)
  | [] => none
  | r :: rest =>
    if r &&& statusW = 0 then
      some [Event.readStatus r, Event.writeData word]
    else
      (directWrite word rest).map (fun evs => Event.readStatus r :: evs)

/-- Auxiliary checker for the write-gating property. The first argument is
`some r` when the immediately preceding event was a status read returning
`r`, and `none` otherwise; a data write is accepted only immediately after
a status read whose bit 29 was clear. -/
def gatedFrom : Option Nat → List Event → Bool
  | _, [] => true
  | o, Event.writeData _ :: rest =>
    match o with
    | some r => (r &&& statusW == 0) && gatedFrom none rest
    | none => false
  | _, Event.readStatus r :: rest => gatedFrom (some r) rest

/-- Every data-register write in the event list occurs immediately after a
status-register read in which bit 29 was zero. -/
def writeGated (evs : List Event) : Bool := gatedFrom none evs

/-- Words extracted from the data-register writes of an event list. -/
def pushedWords (evs : List Event) : List Nat :=
  evs.flatMap (fun e =>
    match e with
    | Event.writeData w => [w]
    | Event.readStatus _ => [])

/-- Observable channel effect of one completed blocking `dcc::write`:
the word is pushed onto the channel trace drained by the host. -/
def writeWord (word : Nat) (trace : List Nat) : List Nat := trace ++ [word]

/-- Zero-extension `u32::from(byte)` of a byte to the 32-bit word width. -/
def u32_from (b : Fin 256) : Nat := b.val

/-- Embedding of `dcc::write_all`: `bytes.iter().for_each(|byte|
write(u32::from(*byte)))`, at the channel-trace level. -/
def write_all (bytes : List (Fin 256)) (trace : List Nat) : List Nat :=
  bytes.foldl (fun t b => writeWord (u32_from b) t) trace

/-- UTF-8 byte encoding of a string, modelling `str::as_bytes`: the
concatenation of the UTF-8 encodings of its characters. -/
def strBytes (s : String) : List (Fin 256) :=
  s.data.flatMap (fun c =>
    (String.utf8EncodeChar c).map (fun b => ⟨b.toNat, b.toNat_lt_size⟩))

/-- Embedding of `dcc::write_str`: `write_all(string.as_bytes())`. -/
def write_str (s : String) (trace : List Nat) : List Nat :=
  write_all (strBytes s) trace

/-- The uninhabited error type `core::convert::Infallible`. -/
inductive Infallible : Type

/-- Proxy struct implementing the `ufmt::uWrite` trait. -/
structure Writer : Type

/-- Embedding of `<Writer as uWrite>::write_str`: calls the free
`write_str` and returns `Ok(())`, with error type `Infallible`. -/
def Writer.write_str (_w : Writer) (s : String) (trace : List Nat) :
    Except Infallible (Unit × List Nat) :=
  Except.ok ((), ArmDcc.write_str s trace)

/-- Compilation target architecture, as seen by the `cfg(target_arch)`
attributes on `dcc::write`. -/
inductive TargetArch
  | arm
  | notArm
deriving DecidableEq

/-- Cargo feature flags that select the backend strategy of `dcc::write`. -/
structure Features where
  nop : Bool
  inlineAsm : Bool
deriving DecidableEq

/-- Outcome of one call to `dcc::write` under a given configuration. -/
inductive WriteOutcome
  | unimplementedPanic
  | completed (evs : List Event)
  | ffiCall (word : Nat)
  | blockedForever
deriving DecidableEq

/-- Embedding of `dcc::write` with its build-time `cfg` dispatch: on a
non-ARM target it hits `unimplemented!()`; on ARM the `nop` feature makes
it a no-op (it takes precedence over `inline-asm`); with `inline-asm` it
runs the direct busy-poll strategy; otherwise it calls the external
`__dcc_write` routine. -/
def write (arch : TargetArch) (feat : Features) (word : Nat)
    (statuses : List Nat) : WriteOutcome :=
  match arch with
  | TargetArch.notArm => WriteOutcome.unimplementedPanic
  | TargetArch.arm =>
    if feat.nop then WriteOutcome.completed []
    else if feat.inlineAsm then
      match directWrite word statuses with
      | some evs => WriteOutcome.completed evs
      | none => WriteOutcome.blockedForever
    else WriteOutcome.ffiCall word

/-- Register accesses produced by a sequence of `dcc::write` calls under
the ARM `nop` configuration, one call per word, accumulated in order. -/
def nopCallSeq (ia : Bool) (words : List Nat) (statuses : List Nat) :
    List Event :=
  words.foldl (fun acc w =>
    match write TargetArch.arm ⟨true, ia⟩ w statuses with
    | WriteOutcome.completed evs => acc ++ evs
    | _ => acc) []

/-- Source location attached to a panic (`core::panic::Location`):
file path, line and column, the numbers being `u32`. -/
structure Location where
  file : String
  line : Nat
  column : Nat

/-- Payload of a panic: either a `&str` message (the downcast in the
handler succeeds) or some other `dyn Any` value (the downcast fails). -/
inductive PanicPayload
  | text (s : String)
  | nonText

/-- Embedding of `core::panic::PanicInfo` as consulted by the handler. -/
structure PanicInfo where
  payload : PanicPayload
  location : Option Location

/-- Decimal rendering of a `u32`, modelling `<u32 as uDisplay>::fmt` of
the external `ufmt` formatting facility. -/
def u32Decimal (n : Nat) : String := toString (n % 2 ^ 32)

/-- Embedding of the `panic-dcc` handler body (before its final loop):
the sequence of `write_str` fragments it pushes through `Writer`, in
source order. `<str as uDisplay>::fmt` writes the string itself;
each `.ok()` discards the (infallible) result. -/
def panic (info : PanicInfo) (trace : List Nat) : List Nat :=
  let t1 := write_str "panicked at '" trace
  let t2 :=
    match info.payload with
    | PanicPayload.text s => write_str s t1
    | PanicPayload.nonText => write_str "dyn Any" t1
  let t3 := write_str "'" t2
  let t4 :=
    match info.location with
    | some loc =>
      let a := write_str ", " t3
      let b := write_str loc.file a
      let c := write_str ":" b
      let d := write_str (u32Decimal loc.line) c
      let e := write_str ":" d
      write_str (u32Decimal loc.column) e
    | none => t3
  write_str "\n" t4

/-- Control phase of the panic handler: rendering the message, or spinning
in the terminal `loop {}`. -/
inductive PanicPhase
  | rendering
  | halting
deriving DecidableEq

/-- State of the panic handler: its phase plus the channel trace. -/
structure PanicState where
  phase : PanicPhase
  trace : List Nat
deriving DecidableEq

/-- Small-step semantics of the panic handler: from `rendering` it emits
the whole message and enters `halting`; from `halting` it loops forever
(the compiler fence has no observable effect), never writing again and
never returning — there is no terminal/returned phase. -/
def panicStep (info : PanicInfo) : PanicState → PanicState
  | ⟨PanicPhase.rendering, t⟩ => ⟨PanicPhase.halting, panic info t⟩
  | ⟨PanicPhase.halting, t⟩ => ⟨PanicPhase.halting, t⟩

/-- The location segment of the rendered message, as the spec describes
it: empty when no location is available, otherwise
`, <file>:<line>:<column>`. -/
def locationSuffix : Option Location → String
  | none => ""
  | some loc =>
    ", " ++ loc.file ++ ":" ++ u32Decimal loc.line ++ ":" ++
      u32Decimal loc.column

/-- The `PanicInfo` of the spec's worked example: payload "Oops" at
src/hello.rs line 4 column 4. -/
def oopsInfo : PanicInfo :=
  { payload := PanicPayload.text "Oops"
    location := some { file := "src/hello.rs", line := 4, column := 4 } }

/-- The full rendered message, at the string level, following the spec's
template `panicked at '<payload>', <file>:<line>:<column>\n`. -/
def renderedMessage (info : PanicInfo) : String :=
  "panicked at '" ++
    (match info.payload with
     | PanicPayload.text s => s
     | PanicPayload.nonText => "dyn Any") ++
    "'" ++ locationSuffix info.location ++ "\n"

theorem write_all_eq (bytes : List (Fin 256)) (trace : List Nat) :
    write_all bytes trace = trace ++ bytes.map u32_from := by
  induction bytes generalizing trace with
  | nil => simp [write_all]
  | cons b bs ih =>
    show write_all bs (writeWord (u32_from b) trace) = _
    rw [ih]
    simp [writeWord]

theorem write_str_eq (s : String) (trace : List Nat) :
    write_str s trace = trace ++ (strBytes s).map u32_from :=
  write_all_eq (strBytes s) trace

theorem strBytes_append (a b : String) :
    strBytes (a ++ b) = strBytes a ++ strBytes b := by
  simp [strBytes, String.data_append]

theorem strBytes_map_val (s : String) :
    (strBytes s).map u32_from = s.toUTF8.data.toList.map UInt8.toNat := by
  show _ = (s.data.flatMap String.utf8EncodeChar).map UInt8.toNat
  simp only [strBytes, List.map_flatMap, List.map_map]
  congr 1

theorem strBytes_quoteNl :
    strBytes "'\n" = strBytes "'" ++ strBytes "\n" := by
  decide

theorem strBytes_dynAny :
    strBytes "panicked at 'dyn Any'" =
      strBytes "panicked at '" ++ strBytes "dyn Any" ++ strBytes "'" := by
  decide

theorem strBytes_dynAnyNl :
    strBytes "panicked at 'dyn Any'\n" =
      strBytes "panicked at '" ++ strBytes "dyn Any" ++ strBytes "'" ++
        strBytes "\n" := by
  decide

theorem panic_eq (info : PanicInfo) (trace : List Nat) :
    panic info trace = trace ++ (strBytes (renderedMessage info)).map u32_from := by
  obtain ⟨payload, location⟩ := info
  cases payload <;> cases location <;>
    simp [panic, renderedMessage, locationSuffix, write_str_eq,
      strBytes_append, strBytes_dynAny, strBytes_dynAnyNl, List.append_assoc]

theorem gatedFrom_directWrite (word : Nat) (statuses : List Nat)
    (evs : List Event) (h : directWrite word statuses = some evs) :
    ∀ o, gatedFrom o evs = true := by
  induction statuses generalizing evs with
  | nil => simp [directWrite] at h
  | cons r rest ih =>
    by_cases hb : r &&& statusW = 0
    · simp only [directWrite, if_pos hb, Option.some.injEq] at h
      subst h
      intro o
      simp [gatedFrom, hb]
    · simp only [directWrite, if_neg hb, Option.map_eq_some'] at h
      obtain ⟨evs', h1, rfl⟩ := h
      intro o
      simpa [gatedFrom] using ih evs' h1 (some r)

theorem directWrite_pushes (word : Nat) (statuses : List Nat)
    (evs : List Event) (h : directWrite word statuses = some evs) :
    pushedWords evs = [word] := by
  induction statuses generalizing evs with
  | nil => simp [directWrite] at h
  | cons r rest ih =>
    by_cases hb : r &&& statusW = 0
    · simp only [directWrite, if_pos hb, Option.some.injEq] at h
      subst h
      simp [pushedWords]
    · simp only [directWrite, if_neg hb, Option.map_eq_some'] at h
      obtain ⟨evs', h1, rfl⟩ := h
      simpa [pushedWords] using ih evs' h1

/-- C1: for a failure with textual payload "Oops" and location
src/hello.rs:4:4, the panic handler pushes to the channel exactly the
UTF-8 byte sequence of `panicked at 'Oops', src/hello.rs:4:4\n`, with the
fragments in exactly that order. -/
theorem c1_oops_with_location :
    panic oopsInfo [] =
      (strBytes "panicked at 'Oops', src/hello.rs:4:4\n").map u32_from := by
  decide

/-- C2: the words pushed by `write_all` are exactly the input bytes in
order — one word per byte, no reordering, duplication or drops — each
being the zero-extension of its byte, hence below 256. -/
theorem c2_write_all_exact (bytes : List (Fin 256)) (trace : List Nat) :
    write_all bytes trace = trace ++ bytes.map u32_from ∧
    ∀ w ∈ bytes.map u32_from, w < 256 := by
  refine ⟨write_all_eq bytes trace, ?_⟩
  intro w hw
  rcases List.mem_map.mp hw with ⟨b, _, rfl⟩
  exact b.isLt

/-- C3: the `Writer` sink is infallible by construction: its error type
`Infallible` is uninhabited, and `Writer.write_str` returns `Ok(())` on
every input string. -/
theorem c3_writer_infallible :
    (∀ (w : Writer) (s : String) (trace : List Nat),
        Writer.write_str w s trace =
          Except.ok ((), ArmDcc.write_str s trace)) ∧
      IsEmpty Infallible :=
  ⟨fun _ _ _ => rfl, ⟨fun e => nomatch e⟩⟩

/-- C4: under the direct (inline-asm) strategy, whenever the busy-wait
completes, every data-register write in the recorded event sequence is
issued only immediately after a status-register read in which bit 29 was
zero. -/
theorem c4_direct_write_gated (word : Nat) (statuses : List Nat)
    (evs : List Event) (h : directWrite word statuses = some evs) :
    writeGated evs = true :=
  gatedFrom_directWrite word statuses evs h none

/-- Witness for C4: under the oracle [busy, free] the direct write for
word 65 produces two status reads then the data write, and the gating
property holds of that trace. -/
theorem c4_direct_write_gated_witness :
    writeGated
      [Event.readStatus statusW, Event.readStatus 0, Event.writeData 65] =
      true :=
  c4_direct_write_gated 65 [statusW, 0]
    [Event.readStatus statusW, Event.readStatus 0, Event.writeData 65]
    (by decide)

/-- C5: for a textual payload and no source location, the handler emits
exactly `panicked at '<payload>'\n` — the whole location segment is
omitted, with no trailing comma or space before the newline. -/
theorem c5_no_location (s : String) (trace : List Nat) :
    panic { payload := PanicPayload.text s, location := none } trace =
      trace ++ (strBytes ("panicked at '" ++ s ++ "'\n")).map u32_from := by
  rw [panic_eq]
  simp [renderedMessage, locationSuffix, strBytes_append,
    strBytes_quoteNl, List.append_assoc]

/-- C6: for a payload that does not downcast to a string slice, the
handler substitutes the literal "dyn Any", emitting
`panicked at 'dyn Any'` then the location segment (when present) then the
newline. -/
theorem c6_non_text_payload (loc : Option Location) (trace : List Nat) :
    panic { payload := PanicPayload.nonText, location := loc } trace =
      trace ++
        (strBytes ("panicked at 'dyn Any'" ++ locationSuffix loc ++ "\n")).map
          u32_from := by
  rw [panic_eq]
  simp [renderedMessage, strBytes_append, strBytes_dynAny,
    List.append_assoc]

/-- C7: the panic handler never returns: one step after rendering it is
in the halting phase with the full message as the channel trace, and it
stays in that phase with that exact trace after any further number of
steps — no further channel writes, and there is no returning transition. -/
theorem c7_never_returns (info : PanicInfo) (t : List Nat) (n : Nat) :
    (panicStep info)^[n + 1] ⟨PanicPhase.rendering, t⟩ =
      ⟨PanicPhase.halting, panic info t⟩ ∧
    ∀ u, panicStep info ⟨PanicPhase.halting, u⟩ = ⟨PanicPhase.halting, u⟩ := by
  refine ⟨?_, fun u => rfl⟩
  rw [Function.iterate_succ_apply]
  show (panicStep info)^[n] ⟨PanicPhase.halting, panic info t⟩ = _
  induction n with
  | zero => rfl
  | succ m ihm => rw [Function.iterate_succ_apply]; exact ihm

/-- C8: under the ARM `nop` configuration, `write` returns immediately
for every word with no register access at all (empty event list), and any
sequence of such calls — including the empty one — produces no register
accesses. -/
theorem c8_nop_untouched (ia : Bool) (word : Nat) (statuses : List Nat)
    (words : List Nat) :
    write TargetArch.arm ⟨true, ia⟩ word statuses =
      WriteOutcome.completed [] ∧
    nopCallSeq ia words statuses = [] := by
  refine ⟨rfl, ?_⟩
  show words.foldl _ [] = []
  have gen : ∀ (ws : List Nat) (acc : List Event),
      ws.foldl (fun acc w =>
        match write TargetArch.arm ⟨true, ia⟩ w statuses with
        | WriteOutcome.completed evs => acc ++ evs
        | _ => acc) acc = acc := by
    intro ws
    induction ws with
    | nil => intro acc; rfl
    | cons w ws ihw =>
      intro acc
      rw [List.foldl_cons]
      have hstep :
          (match write TargetArch.arm ⟨true, ia⟩ w statuses with
            | WriteOutcome.completed evs => acc ++ evs
            | _ => acc) = acc := by
        simp [write]
      rw [hstep]
      exact ihw acc
  exact gen words []

/-- C9: `write_str` has exactly the channel effect of `write_all` on the
UTF-8 encoding of the string: it appends the string's UTF-8 code units,
zero-extended, to the trace. -/
theorem c9_write_str_utf8 (s : String) (trace : List Nat) :
    write_str s trace = write_all (strBytes s) trace ∧
    write_str s trace = trace ++ s.toUTF8.data.toList.map UInt8.toNat := by
  refine ⟨rfl, ?_⟩
  rw [write_str_eq, strBytes_map_val]

/-- C10: on a non-ARM target, `write` hits `unimplemented!()` for every
feature selection, word and hardware state — an unconditional panic
rather than any of the three backend strategies. -/
theorem c10_non_arm_unimplemented (feat : Features) (word : Nat)
    (statuses : List Nat) :
    write TargetArch.notArm feat word statuses =
      WriteOutcome.unimplementedPanic :=
  rfl

end ArmDcc
